import Mathlib

/-!
# Verification of the region-boundary enforcement layer
(`src/raftstore/store/region_snapshot.rs`)

Shallow embedding of `RegionSnapshot` / `RegionIterator` and the helper
functions they use.  Keys are byte strings modelled as `List Nat` with
byte-lexicographic order.  The underlying engine snapshot is modelled as an
association list from physical keys to values; the global critical-error
counter, the panic mark and the fail-fast flag are threaded explicitly
through a `World` record.  Engine-level I/O errors are not modelled (the
engine model is total), so the `EngineIO` error kind never arises here.
-/

set_option autoImplicit false

namespace RegionSnap

/-- A key is a byte string; bytes are modelled as `Nat` (no byte arithmetic
occurs in this unit, only comparisons). -/
abbrev Key := List Nat

/-- A stored value is a byte string. -/
abbrev Value := List Nat

/-- Strict byte-lexicographic order on keys, as `Ord`/`cmp` on Rust
`Vec<u8>`: element-wise on bytes, a strict prefix is smaller. -/
def keyLt : Key → Key → Bool
  | _, [] => false
  | [], _ :: _ => true
  | a :: as, b :: bs =>
    if a < b then true
    else if a = b then keyLt as bs
    else false

/-- Non-strict byte-lexicographic order. -/
def keyLe (a b : Key) : Bool := !(keyLt b a)

/-- `std::cmp::max` on byte strings. -/
def maxKey (a b : Key) : Key := if keyLt a b then b else a

/-- `std::cmp::min` on byte strings. -/
def minKey (a b : Key) : Key := if keyLt b a then b else a

/-! ## Key codec (external collaborator) -/

/-- Modelled from the spec: the reserved namespace byte the Key Codec
prepends to every shard-data key (`keys::DATA_PREFIX`, the byte `z`). -/
def dataPrefixByte : Nat := 122

/-- Modelled from the spec: `toPhysical` / `keys::data_key` — prepends the
reserved namespace byte to a logical key. -/
def data_key (k : Key) : Key := dataPrefixByte :: k

/-- Modelled from the spec: `toLogical` / `keys::origin_key` — strips the
namespace byte from a physical key. -/
def origin_key (k : Key) : Key := k.drop 1

/-- Modelled from the spec: the maximal physical key of the shard-data
namespace (`keys::DATA_MAX_KEY`), an exclusive upper bound above every
namespaced key. -/
def DATA_MAX_KEY : Key := [dataPrefixByte + 1]

/-! ## Shard descriptor and errors -/

/-- The shard (region) descriptor consumed by this layer: a key range
`[start_key, end_key)`, an empty `end_key` meaning "unbounded". -/
structure Region where
  id : Nat := 0
  start_key : Key := []
  end_key : Key := []
  deriving DecidableEq

/-- Modelled from the spec: `keys::enc_start_key` — the physical encoding of
a shard's start boundary. -/
def enc_start_key (r : Region) : Key := data_key r.start_key

/-- Modelled from the spec: `keys::enc_end_key` — the physical encoding of a
shard's end boundary; an empty end key maps to the maximal physical key of
the data namespace, not to an empty bound. -/
def enc_end_key (r : Region) : Key :=
  if r.end_key.isEmpty then DATA_MAX_KEY else data_key r.end_key

/-- The error kinds this layer can surface.  Engine I/O errors are not
modelled (the engine model is total). -/
inductive RError where
  | keyNotInRegion (key : Key) (region : Region)
  | columnFamilyNotFound (cf : String)
  deriving DecidableEq

/-- Outcome of an operation: normal result, recoverable error, or process
abort (the Rust code aborts either through the fail-fast corruption policy
or through `.unwrap()` on an `Err`); the aborted outcome carries the error
named by the diagnostic message. -/
inductive ROutcome (α : Type) where
  | ok (a : α)
  | err (e : RError)
  | panicked (e : RError)
  deriving DecidableEq

/-- The process-wide state this unit touches: the critical-error counter
(`CRITICAL_ERROR` with label "key not in region"), the sticky corruption
mark (`set_panic_mark`), and the deployment-time fail-fast flag
(`panic_when_unexpected_key_or_data`, read-only here). -/
structure World where
  criticalErrors : Nat := 0
  panicMark : Bool := false
  panicWhenUnexpectedKeyOrData : Bool := false
  deriving DecidableEq

/-- Modelled from the spec: membership of a key in the shard's range with
exclusive upper bound, `start_key ≤ key < end_key` (empty end unbounded). -/
def keyInRegion (key : Key) (r : Region) : Bool :=
  keyLe r.start_key key && (r.end_key.isEmpty || keyLt key r.end_key)

/-- Modelled from the spec: membership with inclusive upper bound,
`start_key ≤ key ≤ end_key` (empty end unbounded); used for seek targets. -/
def keyInRegionIncl (key : Key) (r : Region) : Bool :=
  keyLe r.start_key key && (r.end_key.isEmpty || keyLe key r.end_key)

/-- Modelled from the spec: `util::check_key_in_region` — validates
`start_key ≤ key < end_key` and reports `KeyNotInRegion` otherwise. -/
def check_key_in_region (key : Key) (r : Region) : Except RError Unit :=
  if keyInRegion key r then .ok () else .error (.keyNotInRegion key r)

/-- Modelled from the spec: `util::check_key_in_region_inclusive` — the
variant accepting a target equal to `end_key`. -/
def check_key_in_region_inclusive (key : Key) (r : Region) : Except RError Unit :=
  if keyInRegionIncl key r then .ok () else .error (.keyNotInRegion key r)

/-- `handle_check_key_in_region_error` (source lines 252-264): always bump
the critical-error counter; then either return the error (fail-fast
disabled) or set the corruption mark and abort with a diagnostic carrying
the offending error (fail-fast enabled). -/
def handle_check_key_in_region_error (w : World) (e : RError) : World × ROutcome Unit :=
  let w1 : World := { w with criticalErrors := w.criticalErrors + 1 }
  if w1.panicWhenUnexpectedKeyOrData then
    ({ w1 with panicMark := true }, .panicked e)
  else
    (w1, .err e)

/-! ## Engine snapshot model -/

/-- Modelled from the spec: an immutable engine snapshot — one association
list of (physical key, value) per column family; the default column family
always exists, named ones may not. -/
structure SyncSnapshot where
  defaultCf : List (Key × Value) := []
  namedCfs : List (String × List (Key × Value)) := []
  deriving DecidableEq

/-- Point lookup in one column-family list by physical key. -/
def cfGet (l : List (Key × Value)) (k : Key) : Option Value :=
  (l.find? (fun kv => kv.1 = k)).map (fun kv => kv.2)

/-- Engine point lookup on the default column family. -/
def SyncSnapshot.get_value (s : SyncSnapshot) (k : Key) : Option Value :=
  cfGet s.defaultCf k

/-- Engine point lookup on a named column family; fails when the column
family does not exist. -/
def SyncSnapshot.get_value_cf (s : SyncSnapshot) (cf : String) (k : Key) :
    Except RError (Option Value) :=
  match s.namedCfs.find? (fun p => p.1 = cf) with
  | none => .error (.columnFamilyNotFound cf)
  | some p => .ok (cfGet p.2 k)

/-- Iterator options: optional physical lower (inclusive) / upper
(exclusive) bounds plus the cache-fill hint. -/
structure IterOption where
  lower_bound : Option Key := none
  upper_bound : Option Key := none
  fill_cache : Bool := true
  deriving DecidableEq

/-- `IterOption::new`. -/
def IterOption.new (lower upper : Option Key) (fill : Bool) : IterOption :=
  { lower_bound := lower, upper_bound := upper, fill_cache := fill }

/-- `IterOption::default`: no bounds, cache fill on. -/
def IterOption.default : IterOption := {}

/-- Whether a physical key satisfies the configured bounds (inclusive
lower, exclusive upper; a missing bound does not constrain). -/
def boundCheck (opt : IterOption) (k : Key) : Bool :=
  (match opt.lower_bound with
   | some lb => keyLe lb k
   | none => true) &&
  (match opt.upper_bound with
   | some ub => keyLt k ub
   | none => true)

/-- Modelled from the spec: the engine's bounded iterator over the default
column family — the sub-list of entries within the configured bounds. -/
def SyncSnapshot.db_iterator (s : SyncSnapshot) (opt : IterOption) : List (Key × Value) :=
  s.defaultCf.filter (fun kv => boundCheck opt kv.1)

/-- Modelled from the spec: the engine's bounded iterator over a named
column family; fails when the column family does not exist. -/
def SyncSnapshot.db_iterator_cf (s : SyncSnapshot) (cf : String) (opt : IterOption) :
    Except RError (List (Key × Value)) :=
  match s.namedCfs.find? (fun p => p.1 = cf) with
  | none => .error (.columnFamilyNotFound cf)
  | some p => .ok (p.2.filter (fun kv => boundCheck opt kv.1))

/-! ## Bound clipping (source `set_lower_bound` / `set_upper_bound`) -/

/-- `set_lower_bound` (source lines 151-161): replace the user lower bound
by its intersection with the shard's encoded start boundary. -/
def set_lower_bound (iter_opt : IterOption) (region : Region) : IterOption :=
  let region_start_key := enc_start_key region
  let lower_bound :=
    match iter_opt.lower_bound with
    | some k =>
      if !k.isEmpty then maxKey (data_key k) region_start_key
      else region_start_key
    | none => region_start_key
  { iter_opt with lower_bound := some lower_bound }

/-- `set_upper_bound` (source lines 163-173): replace the user upper bound
by its intersection with the shard's encoded end boundary. -/
def set_upper_bound (iter_opt : IterOption) (region : Region) : IterOption :=
  let region_end_key := enc_end_key region
  let upper_bound :=
    match iter_opt.upper_bound with
    | some k =>
      if !k.isEmpty then minKey (data_key k) region_end_key
      else region_end_key
    | none => region_end_key
  { iter_opt with upper_bound := some upper_bound }

/-- Modelled from the spec: `clipLower(userLower, shard)` — if the user
lower bound is present and non-empty, `max(toPhysical(userLower),
encodedStart(shard))`, else `encodedStart(shard)`. -/
def clipLower (userLower : Option Key) (region : Region) : Key :=
  match userLower with
  | some k =>
    if k.isEmpty then enc_start_key region
    else maxKey (data_key k) (enc_start_key region)
  | none => enc_start_key region

/-- Modelled from the spec: `clipUpper(userUpper, shard)` — symmetric to
`clipLower` with `min` and `encodedEnd(shard)`. -/
def clipUpper (userUpper : Option Key) (region : Region) : Key :=
  match userUpper with
  | some k =>
    if k.isEmpty then enc_end_key region
    else minKey (data_key k) (enc_end_key region)
  | none => enc_end_key region

/-! ## RegionSnapshot and RegionIterator -/

/-- `RegionSnapshot` (source lines 29-33): an engine snapshot plus the
shard descriptor captured at construction. -/
structure RegionSnapshot where
  snap : SyncSnapshot
  region : Region
  deriving DecidableEq

/-- `RegionSnapshot::from_snapshot`. -/
def RegionSnapshot.from_snapshot (snap : SyncSnapshot) (region : Region) : RegionSnapshot :=
  { snap := snap, region := region }

/-- `RegionSnapshot::get_region`. -/
def RegionSnapshot.get_region (s : RegionSnapshot) : Region := s.region

/-- `RegionSnapshot::get_start_key`. -/
def RegionSnapshot.get_start_key (s : RegionSnapshot) : Key := s.region.start_key

/-- `RegionSnapshot::get_end_key`. -/
def RegionSnapshot.get_end_key (s : RegionSnapshot) : Key := s.region.end_key

/-- `Clone for RegionSnapshot`: duplicates the handle, sharing the same
engine snapshot and shard descriptor. -/
def RegionSnapshot.clone (s : RegionSnapshot) : RegionSnapshot :=
  { snap := s.snap, region := s.region }

/-- `RegionIterator` (source lines 146-149): the engine iterator (its
bound-clipped entry list plus a cursor) and the shared shard descriptor.
The cursor `pos` is `none` when the iterator is not positioned. -/
structure RegionIterator where
  entries : List (Key × Value)
  pos : Option Nat
  region : Region
  deriving DecidableEq

/-- `RegionIterator::new` (source lines 177-182): clip both bounds against
the shard boundary, then build the engine iterator. -/
def RegionIterator.new (snap : SyncSnapshot) (region : Region) (iter_opt : IterOption) :
    RegionIterator :=
  let iter_opt1 := set_lower_bound iter_opt region
  let iter_opt2 := set_upper_bound iter_opt1 region
  { entries := snap.db_iterator iter_opt2, pos := none, region := region }

/-- `RegionIterator::new_cf` (source lines 184-194): like `new` on a named
column family; the source calls `.unwrap()` on the engine result, so a
missing column family aborts the process instead of returning the error. -/
def RegionIterator.new_cf (snap : SyncSnapshot) (region : Region) (iter_opt : IterOption)
    (cf : String) : ROutcome RegionIterator :=
  let iter_opt1 := set_lower_bound iter_opt region
  let iter_opt2 := set_upper_bound iter_opt1 region
  match snap.db_iterator_cf cf iter_opt2 with
  | .error e => .panicked e
  | .ok entries => .ok { entries := entries, pos := none, region := region }

/-- `RegionSnapshot::iter`. -/
def RegionSnapshot.iter (s : RegionSnapshot) (iter_opt : IterOption) : RegionIterator :=
  RegionIterator.new s.snap s.region iter_opt

/-- `RegionSnapshot::iter_cf`: `Ok(RegionIterator::new_cf(..))` — the `Ok`
wraps a call that aborts on a missing column family, so the error is never
actually propagated. -/
def RegionSnapshot.iter_cf (s : RegionSnapshot) (cf : String) (iter_opt : IterOption) :
    ROutcome RegionIterator :=
  RegionIterator.new_cf s.snap s.region iter_opt cf

/-! ## Iterator cursor operations -/

/-- Index of the first entry whose key is `≥ target` (engine `seek` on the
bounded iterator). -/
def findFirstGe : List (Key × Value) → Key → Option Nat
  | [], _ => none
  | kv :: rest, t =>
    if keyLe t kv.1 then some 0
    else (findFirstGe rest t).map (fun i => i + 1)

/-- Index of the last entry whose key is `≤ target` (engine
`seek_for_prev` on the bounded iterator). -/
def findLastLe : List (Key × Value) → Key → Option Nat
  | [], _ => none
  | kv :: rest, t =>
    match findLastLe rest t with
    | some i => some (i + 1)
    | none => if keyLe kv.1 t then some 0 else none

/-- `RegionIterator::seek_to_first`: position on the first in-bound entry;
returns whether the iterator is positioned. -/
def RegionIterator.seek_to_first (it : RegionIterator) : RegionIterator × Bool :=
  if it.entries.isEmpty then ({ it with pos := none }, false)
  else ({ it with pos := some 0 }, true)

/-- `RegionIterator::seek_to_last`: position on the last in-bound entry. -/
def RegionIterator.seek_to_last (it : RegionIterator) : RegionIterator × Bool :=
  if it.entries.isEmpty then ({ it with pos := none }, false)
  else ({ it with pos := some (it.entries.length - 1) }, true)

/-- `RegionIterator::next`: advance forward; invalid past the last entry. -/
def RegionIterator.next (it : RegionIterator) : RegionIterator × Bool :=
  match it.pos with
  | some i =>
    if i + 1 < it.entries.length then ({ it with pos := some (i + 1) }, true)
    else ({ it with pos := none }, false)
  | none => ({ it with pos := none }, false)

/-- `RegionIterator::prev`: step backward; invalid before the first entry. -/
def RegionIterator.prev (it : RegionIterator) : RegionIterator × Bool :=
  match it.pos with
  | some i =>
    if i = 0 then ({ it with pos := none }, false)
    else ({ it with pos := some (i - 1) }, true)
  | none => ({ it with pos := none }, false)

/-- `RegionIterator::should_seekable` (source lines 244-249): validate a
seek target with the inclusive range check, routing failures through the
corruption policy. -/
def RegionIterator.should_seekable (w : World) (it : RegionIterator) (key : Key) :
    World × ROutcome Unit :=
  match check_key_in_region_inclusive key it.region with
  | .error e => handle_check_key_in_region_error w e
  | .ok _ => (w, .ok ())

/-- `RegionIterator::seek` (source lines 204-210): validate the target,
convert it to physical form, and position on the first entry `≥` it. -/
def RegionIterator.seek (w : World) (it : RegionIterator) (key : Key) :
    World × RegionIterator × ROutcome Bool :=
  match RegionIterator.should_seekable w it key with
  | (w1, .err e) => (w1, it, .err e)
  | (w1, .panicked e) => (w1, it, .panicked e)
  | (w1, .ok _) =>
    match findFirstGe it.entries (data_key key) with
    | some i => (w1, { it with pos := some i }, .ok true)
    | none => (w1, { it with pos := none }, .ok false)

/-- `RegionIterator::seek_for_prev` (source lines 212-218): validate the
target, convert it, and position on the last entry `≤` it. -/
def RegionIterator.seek_for_prev (w : World) (it : RegionIterator) (key : Key) :
    World × RegionIterator × ROutcome Bool :=
  match RegionIterator.should_seekable w it key with
  | (w1, .err e) => (w1, it, .err e)
  | (w1, .panicked e) => (w1, it, .panicked e)
  | (w1, .ok _) =>
    match findLastLe it.entries (data_key key) with
    | some i => (w1, { it with pos := some i }, .ok true)
    | none => (w1, { it with pos := none }, .ok false)

/-- `RegionIterator::key`: the logical key at the current position
(namespace byte stripped); `none` when not positioned. -/
def RegionIterator.key (it : RegionIterator) : Option Key :=
  match it.pos with
  | some i => (it.entries.get? i).map (fun kv => origin_key kv.1)
  | none => none

/-- `RegionIterator::value`: the raw value at the current position. -/
def RegionIterator.value (it : RegionIterator) : Option Value :=
  match it.pos with
  | some i => (it.entries.get? i).map (fun kv => kv.2)
  | none => none

/-- `RegionIterator::valid`. -/
def RegionIterator.valid (it : RegionIterator) : Bool := it.pos.isSome

/-! ## Scan -/

/-- Lift the scan loop's `Except` result into an operation outcome. -/
def liftExcept : Except RError Unit → ROutcome Unit
  | .ok _ => .ok ()
  | .error e => .err e

/-- The `while it_valid` loop of `scan_impl` (source lines 100-104),
expressed by recursion over the entries at and after the cursor: apply the
visitor to the logical key and value of the current entry; on `Ok(true)`
advance (`next`), on `Ok(false)` stop with success, on an error stop with
that error. -/
def scanFrom (f : Key → Value → Except RError Bool) : List (Key × Value) → Except RError Unit
  | [] => .ok ()
  | kv :: rest =>
    match f (origin_key kv.1) kv.2 with
    | .error e => .error e
    | .ok false => .ok ()
    | .ok true => scanFrom f rest

/-- `RegionSnapshot::scan_impl` (source lines 96-105): seek the iterator to
`start_key` (which routes through the corruption policy), then run the
visitor loop from the position found. -/
def RegionSnapshot.scan_impl (w : World) (it : RegionIterator) (start_key : Key)
    (f : Key → Value → Except RError Bool) : World × ROutcome Unit :=
  match RegionIterator.seek w it start_key with
  | (w1, _, .err e) => (w1, .err e)
  | (w1, _, .panicked e) => (w1, .panicked e)
  | (w1, it1, .ok _) =>
    match it1.pos with
    | some i => (w1, liftExcept (scanFrom f (it1.entries.drop i)))
    | none => (w1, .ok ())

/-- `RegionSnapshot::scan` (source lines 70-77): iterate `[start_key,
end_key)` on the default column family, calling `f` for each entry. -/
def RegionSnapshot.scan (w : World) (s : RegionSnapshot) (start_key end_key : Key)
    (fill_cache : Bool) (f : Key → Value → Except RError Bool) : World × ROutcome Unit :=
  let iter_opt := IterOption.new (some start_key) (some end_key) fill_cache
  RegionSnapshot.scan_impl w (s.iter iter_opt) start_key f

/-- `RegionSnapshot::scan_cf` (source lines 80-94): like `scan` on a named
column family. -/
def RegionSnapshot.scan_cf (w : World) (s : RegionSnapshot) (cf : String)
    (start_key end_key : Key) (fill_cache : Bool)
    (f : Key → Value → Except RError Bool) : World × ROutcome Unit :=
  let iter_opt := IterOption.new (some start_key) (some end_key) fill_cache
  match s.iter_cf cf iter_opt with
  | .err e => (w, .err e)
  | .panicked e => (w, .panicked e)
  | .ok it => RegionSnapshot.scan_impl w it start_key f

/-! ## Point lookups (`Peekable for RegionSnapshot`, source lines 129-141) -/

/-- `RegionSnapshot::get_value`: validate the key against the shard range
(the `?` operator returns the failure directly — it does not route through
the corruption policy), then look the physical key up in the snapshot. -/
def RegionSnapshot.get_value (w : World) (s : RegionSnapshot) (key : Key) :
    World × ROutcome (Option Value) :=
  match check_key_in_region key s.region with
  | .error e => (w, .err e)
  | .ok _ => (w, .ok (s.snap.get_value (data_key key)))

/-- `RegionSnapshot::get_value_cf`: as `get_value` on a named column
family. -/
def RegionSnapshot.get_value_cf (w : World) (s : RegionSnapshot) (cf : String) (key : Key) :
    World × ROutcome (Option Value) :=
  match check_key_in_region key s.region with
  | .error e => (w, .err e)
  | .ok _ =>
    match s.snap.get_value_cf cf (data_key key) with
    | .error e => (w, .err e)
    | .ok v => (w, .ok v)

/-! ## Reachable iterator states -/

/-- One cursor operation on a `RegionIterator` (any argument, any world). -/
inductive IterStep : RegionIterator → RegionIterator → Prop
  | stf (it : RegionIterator) : IterStep it (RegionIterator.seek_to_first it).1
  | stl (it : RegionIterator) : IterStep it (RegionIterator.seek_to_last it).1
  | nxt (it : RegionIterator) : IterStep it (RegionIterator.next it).1
  | prv (it : RegionIterator) : IterStep it (RegionIterator.prev it).1
  | sk (w : World) (it : RegionIterator) (k : Key) :
      IterStep it (RegionIterator.seek w it k).2.1
  | skp (w : World) (it : RegionIterator) (k : Key) :
      IterStep it (RegionIterator.seek_for_prev w it k).2.1

/-- Iterator states reachable by any sequence of cursor operations. -/
def IterReaches : RegionIterator → RegionIterator → Prop :=
  Relation.ReflTransGen IterStep

/-- The ways a `RegionIterator` is handed out by a `RegionSnapshot`:
either `iter` (default column family) or a successful `iter_cf`. -/
def BuiltFrom (s : RegionSnapshot) (it : RegionIterator) : Prop :=
  (∃ opt, it = s.iter opt) ∨ (∃ cf opt, s.iter_cf cf opt = ROutcome.ok it)

/-- The entries a successful scan visits: the suffix of the bounded
iterator's entries from the first key at or after the physical start key
(empty when the seek finds nothing). -/
def scanEntries (s : RegionSnapshot) (start_key end_key : Key) (fill_cache : Bool) :
    List (Key × Value) :=
  match findFirstGe (RegionSnapshot.iter s (IterOption.new (some start_key) (some end_key)
      fill_cache)).entries (data_key start_key) with
  | some i => (RegionSnapshot.iter s (IterOption.new (some start_key) (some end_key)
      fill_cache)).entries.drop i
  | none => []

/-! ## Concrete fixtures used by witnesses and counterexamples -/

/-- World with fail-fast disabled. -/
def w0 : World := { criticalErrors := 0, panicMark := false, panicWhenUnexpectedKeyOrData := false }

/-- World with fail-fast enabled. -/
def w1 : World := { criticalErrors := 0, panicMark := false, panicWhenUnexpectedKeyOrData := true }

/-- A small engine snapshot: three entries in the data namespace on the
default column family and one on a named column family. -/
def snap0 : SyncSnapshot :=
  { defaultCf := [([122, 3], [13]), ([122, 5], [15]), ([122, 8], [18])],
    namedCfs := [("lock", [([122, 4], [14])])] }

/-- A shard owning the key range `[[2], [7])`. -/
def region0 : Region := { id := 10, start_key := [2], end_key := [7] }

/-- The region snapshot over `snap0` and `region0`. -/
def s0 : RegionSnapshot := RegionSnapshot.from_snapshot snap0 region0

/-! ## Order and codec lemmas -/

theorem keyLt_irrefl (a : Key) : keyLt a a = false := by
  induction a with
  | nil => rfl
  | cons x xs ih => simp [keyLt, ih]

theorem keyLt_nil (a : Key) : keyLt a [] = false := by
  cases a <;> rfl

theorem keyLt_trans : ∀ {a b c : Key}, keyLt a b = true → keyLt b c = true → keyLt a c = true
  | _, _, [], _, h2 => by rw [keyLt_nil] at h2; exact absurd h2 (by simp)
  | _, [], _ :: _, h1, _ => by rw [keyLt_nil] at h1; exact absurd h1 (by simp)
  | [], _ :: _, _ :: _, _, _ => rfl
  | a :: as, b :: bs, c :: cs, h1, h2 => by
    simp only [keyLt] at h1 h2 ⊢
    split at h1
    · -- a < b
      split at h2
      · -- b < c
        have : a < c := by omega
        simp [this]
      · split at h2
        · -- b = c
          have : a < c := by omega
          simp [this]
        · exact absurd h2 (by simp)
    · split at h1
      · -- a = b
        split at h2
        · -- b < c
          have : a < c := by omega
          simp [this]
        · split at h2
          · -- b = c
            have hac : a = c := by omega
            have htl : keyLt as cs = true := keyLt_trans h1 h2
            simp [hac, htl]
          · exact absurd h2 (by simp)
      · exact absurd h1 (by simp)

theorem keyLt_total : ∀ (a b : Key), keyLt a b = true ∨ a = b ∨ keyLt b a = true
  | [], [] => Or.inr (Or.inl rfl)
  | [], _ :: _ => Or.inl rfl
  | _ :: _, [] => Or.inr (Or.inr rfl)
  | a :: as, b :: bs => by
    rcases Nat.lt_trichotomy a b with h | h | h
    · exact Or.inl (by simp [keyLt, h])
    · rcases keyLt_total as bs with ht | ht | ht
      · exact Or.inl (by simp [keyLt, h, ht])
      · exact Or.inr (Or.inl (by simp [h, ht]))
      · exact Or.inr (Or.inr (by simp [keyLt, h, ht]))
    · exact Or.inr (Or.inr (by simp [keyLt, h, Nat.ne_of_gt h]))

theorem keyLt_asymm {a b : Key} (h : keyLt a b = true) : keyLt b a = false := by
  by_contra hc
  have hba : keyLt b a = true := by
    cases hab : keyLt b a
    · exact absurd hab hc
    · rfl
  have := keyLt_trans h hba
  rw [keyLt_irrefl] at this
  exact absurd this (by simp)

theorem keyLe_refl (a : Key) : keyLe a a = true := by
  simp [keyLe, keyLt_irrefl]

theorem keyLe_of_lt {a b : Key} (h : keyLt a b = true) : keyLe a b = true := by
  simp [keyLe, keyLt_asymm h]

theorem keyLe_trans {a b c : Key} (h1 : keyLe a b = true) (h2 : keyLe b c = true) :
    keyLe a c = true := by
  simp only [keyLe, Bool.not_eq_true'] at h1 h2 ⊢
  by_contra hc
  have hca : keyLt c a = true := by
    cases h : keyLt c a
    · exact absurd h hc
    · rfl
  rcases keyLt_total a b with h | h | h
  · have := keyLt_trans hca h
    rw [this] at h2; exact absurd h2 (by simp)
  · subst h
    rw [hca] at h2; exact absurd h2 (by simp)
  · rw [h] at h1; exact absurd h1 (by simp)

theorem keyLt_of_lt_of_le {a b c : Key} (h1 : keyLt a b = true) (h2 : keyLe b c = true) :
    keyLt a c = true := by
  simp only [keyLe, Bool.not_eq_true'] at h2
  rcases keyLt_total a c with h | h | h
  · exact h
  · subst h
    rw [h1] at h2
    exact absurd h2 (by simp)
  · have := keyLt_trans h h1
    rw [this] at h2
    exact absurd h2 (by simp)

theorem keyLt_of_le_of_lt {a b c : Key} (h1 : keyLe a b = true) (h2 : keyLt b c = true) :
    keyLt a c = true := by
  simp only [keyLe, Bool.not_eq_true'] at h1
  rcases keyLt_total a c with h | h | h
  · exact h
  · subst h
    rw [h2] at h1
    exact absurd h1 (by simp)
  · have := keyLt_trans h2 h
    rw [this] at h1
    exact absurd h1 (by simp)

theorem keyLe_maxKey_left (a b : Key) : keyLe a (maxKey a b) = true := by
  unfold maxKey
  split
  · exact keyLe_of_lt (by assumption)
  · exact keyLe_refl a

theorem keyLe_maxKey_right (a b : Key) : keyLe b (maxKey a b) = true := by
  unfold maxKey
  split
  · exact keyLe_refl b
  · rename_i h
    simp only [keyLe, Bool.not_eq_true']
    simpa using h

theorem minKey_le_left (a b : Key) : keyLe (minKey a b) a = true := by
  unfold minKey
  split
  · exact keyLe_of_lt (by assumption)
  · exact keyLe_refl a

theorem minKey_le_right (a b : Key) : keyLe (minKey a b) b = true := by
  unfold minKey
  split
  · exact keyLe_refl b
  · rename_i h
    simp only [keyLe, Bool.not_eq_true']
    simpa using h


/-- Codec round-trip: stripping after prepending is the identity. -/
theorem origin_key_data_key (k : Key) : origin_key (data_key k) = k := rfl

/-! ## Helper lemmas -/

theorem set_lower_bound_spec (opt : IterOption) (r : Region) :
    set_lower_bound opt r =
      { opt with lower_bound := some (clipLower opt.lower_bound r) } := by
  cases hlb : opt.lower_bound with
  | none => simp [set_lower_bound, clipLower, hlb]
  | some k =>
    cases hk : k.isEmpty <;> simp [set_lower_bound, clipLower, hlb, hk]

theorem set_upper_bound_spec (opt : IterOption) (r : Region) :
    set_upper_bound opt r =
      { opt with upper_bound := some (clipUpper opt.upper_bound r) } := by
  cases hub : opt.upper_bound with
  | none => simp [set_upper_bound, clipUpper, hub]
  | some k =>
    cases hk : k.isEmpty <;> simp [set_upper_bound, clipUpper, hub, hk]

/-- Effect of clipping both bounds in sequence. -/
theorem set_bounds_spec (opt : IterOption) (r : Region) :
    set_upper_bound (set_lower_bound opt r) r =
      { opt with lower_bound := some (clipLower opt.lower_bound r),
                 upper_bound := some (clipUpper opt.upper_bound r) } := by
  rw [set_lower_bound_spec, set_upper_bound_spec]

/-- The clipped lower bound never lies below the shard's encoded start. -/
theorem clipLower_ge_start (u : Option Key) (r : Region) :
    keyLe (enc_start_key r) (clipLower u r) = true := by
  cases u with
  | none => exact keyLe_refl _
  | some k =>
    by_cases hk : k.isEmpty = true
    · simp [clipLower, hk, keyLe_refl]
    · simp only [clipLower]
      rw [if_neg hk]
      exact keyLe_maxKey_right _ _

/-- The clipped upper bound never lies above the shard's encoded end. -/
theorem clipUpper_le_end (u : Option Key) (r : Region) :
    keyLe (clipUpper u r) (enc_end_key r) = true := by
  cases u with
  | none => exact keyLe_refl _
  | some k =>
    by_cases hk : k.isEmpty = true
    · simp [clipUpper, hk, keyLe_refl]
    · simp only [clipUpper]
      rw [if_neg hk]
      exact minKey_le_right _ _

/-- A physical key inside the shard's encoded boundary carries the
namespace byte, and its logical form lies inside the logical boundary. -/
theorem strip_range {r : Region} {p : Key}
    (h1 : keyLe (enc_start_key r) p = true) (h2 : keyLt p (enc_end_key r) = true) :
    keyLe r.start_key (origin_key p) = true ∧
      (r.end_key ≠ [] → keyLt (origin_key p) r.end_key = true) := by
  simp only [keyLe, Bool.not_eq_true'] at h1
  cases p with
  | nil =>
    exfalso
    simp [enc_start_key, data_key, keyLt] at h1
  | cons b rest =>
    simp only [enc_start_key, data_key, keyLt] at h1
    rcases Nat.lt_trichotomy b dataPrefixByte with hb | hb | hb
    · rw [if_pos hb] at h1
      exact absurd h1 (by simp)
    · rw [if_neg (by omega), if_pos hb] at h1
      cases hend : r.end_key with
      | nil =>
        refine ⟨?_, fun hne => absurd rfl hne⟩
        simp only [keyLe, Bool.not_eq_true', origin_key, List.drop_succ_cons, List.drop_zero]
        exact h1
      | cons e0 es =>
        have h2' : keyLt rest (e0 :: es) = true := by
          simp only [enc_end_key, hend, List.isEmpty_cons, if_false, Bool.false_eq_true,
            data_key, keyLt] at h2
          rw [if_neg (by omega), if_pos hb] at h2
          exact h2
        constructor
        · simp only [keyLe, Bool.not_eq_true', origin_key, List.drop_succ_cons, List.drop_zero]
          exact h1
        · intro _
          simp only [origin_key, List.drop_succ_cons, List.drop_zero, hend]
          exact h2'
    · exfalso
      cases hend : r.end_key with
      | nil =>
        simp only [enc_end_key, hend, List.isEmpty_nil, if_true, DATA_MAX_KEY, keyLt] at h2
        rcases Nat.lt_trichotomy b (dataPrefixByte + 1) with hb2 | hb2 | hb2
        · omega
        · rw [if_neg (by omega), if_pos hb2] at h2
          exact absurd h2 (by simp)
        · rw [if_neg (by omega), if_neg (by omega)] at h2
          exact absurd h2 (by simp)
      | cons e0 es =>
        simp only [enc_end_key, hend, List.isEmpty_cons, if_false, Bool.false_eq_true,
          data_key, keyLt] at h2
        rw [if_neg (by omega), if_neg (by omega)] at h2
        exact absurd h2 (by simp)

/-- Keys of the entries of any iterator handed out by a snapshot lie within
the shard's encoded physical boundary; the iterator also shares the
snapshot's shard descriptor and starts unpositioned. -/
theorem builtFrom_spec {s : RegionSnapshot} {it : RegionIterator} (h : BuiltFrom s it) :
    it.region = s.region ∧
      ∀ kv, kv ∈ it.entries →
        keyLe (enc_start_key s.region) kv.1 = true ∧
          keyLt kv.1 (enc_end_key s.region) = true := by
  have main : ∀ (l : List (Key × Value)) (opt : IterOption) (kv : Key × Value),
      kv ∈ l.filter
        (fun kv => boundCheck (set_upper_bound (set_lower_bound opt s.region) s.region) kv.1) →
      keyLe (enc_start_key s.region) kv.1 = true ∧
        keyLt kv.1 (enc_end_key s.region) = true := by
    intro l opt kv hmem
    rw [List.mem_filter, set_bounds_spec] at hmem
    obtain ⟨-, hb⟩ := hmem
    simp only [boundCheck, Bool.and_eq_true] at hb
    obtain ⟨hlo, hhi⟩ := hb
    exact ⟨keyLe_trans (clipLower_ge_start opt.lower_bound s.region) hlo,
      keyLt_of_lt_of_le hhi (clipUpper_le_end opt.upper_bound s.region)⟩
  rcases h with ⟨opt, rfl⟩ | ⟨cf, opt, hcf⟩
  · exact ⟨rfl, fun kv hkv => main s.snap.defaultCf opt kv hkv⟩
  · replace hcf : (match SyncSnapshot.db_iterator_cf s.snap cf
          (set_upper_bound (set_lower_bound opt s.region) s.region) with
        | Except.error e => (ROutcome.panicked e : ROutcome RegionIterator)
        | Except.ok entries =>
          ROutcome.ok { entries := entries, pos := none, region := s.region }) =
        ROutcome.ok it := hcf
    cases hdb : SyncSnapshot.db_iterator_cf s.snap cf
        (set_upper_bound (set_lower_bound opt s.region) s.region) with
    | error e => rw [hdb] at hcf; exact absurd hcf (by simp)
    | ok entries =>
      rw [hdb] at hcf
      simp only [ROutcome.ok.injEq] at hcf
      subst hcf
      unfold SyncSnapshot.db_iterator_cf at hdb
      cases hfind : s.snap.namedCfs.find? (fun p => p.1 = cf) with
      | none => rw [hfind] at hdb; exact absurd hdb (by simp)
      | some p =>
        rw [hfind] at hdb
        simp only [Except.ok.injEq] at hdb
        refine ⟨rfl, fun kv hkv => ?_⟩
        rw [← hdb] at hkv
        exact main p.2 opt kv hkv

/-- Every cursor operation leaves the entry list and the shard descriptor
of the iterator unchanged. -/
theorem iterStep_frame {it it' : RegionIterator} (h : IterStep it it') :
    it'.entries = it.entries ∧ it'.region = it.region := by
  cases h with
  | stf it =>
    unfold RegionIterator.seek_to_first
    split <;> exact ⟨rfl, rfl⟩
  | stl it =>
    unfold RegionIterator.seek_to_last
    split <;> exact ⟨rfl, rfl⟩
  | nxt it =>
    unfold RegionIterator.next
    cases it.pos with
    | none => exact ⟨rfl, rfl⟩
    | some i =>
      simp only []
      split <;> exact ⟨rfl, rfl⟩
  | prv it =>
    unfold RegionIterator.prev
    cases it.pos with
    | none => exact ⟨rfl, rfl⟩
    | some i =>
      simp only []
      split <;> exact ⟨rfl, rfl⟩
  | sk w it k =>
    unfold RegionIterator.seek
    cases hss : RegionIterator.should_seekable w it k with
    | mk w1 o =>
      cases o with
      | ok a => cases hf : findFirstGe it.entries (data_key k) <;> simp
      | err e => simp
      | panicked e => simp
  | skp w it k =>
    unfold RegionIterator.seek_for_prev
    cases hss : RegionIterator.should_seekable w it k with
    | mk w1 o =>
      cases o with
      | ok a => cases hf : findLastLe it.entries (data_key k) <;> simp
      | err e => simp
      | panicked e => simp

/-- Frame property extended to whole operation sequences. -/
theorem iterReaches_frame {it it' : RegionIterator} (h : IterReaches it it') :
    it'.entries = it.entries ∧ it'.region = it.region := by
  induction h with
  | refl => exact ⟨rfl, rfl⟩
  | tail _ hstep ih =>
    obtain ⟨h1, h2⟩ := iterStep_frame hstep
    exact ⟨h1.trans ih.1, h2.trans ih.2⟩

/-- `findFirstGe` finds nothing when no entry key reaches the target. -/
theorem findFirstGe_eq_none {l : List (Key × Value)} {t : Key}
    (h : ∀ kv ∈ l, keyLe t kv.1 = false) : findFirstGe l t = none := by
  induction l with
  | nil => rfl
  | cons kv rest ih =>
    unfold findFirstGe
    rw [if_neg (by rw [h kv (List.mem_cons_self kv rest)]; simp)]
    rw [ih (fun x hx => h x (List.mem_cons_of_mem kv hx))]
    rfl

/-! ## Claim theorems -/

/-- C8 (confirmed): whenever a seek-target range check fails, the handler
always increments the critical-error counter; with fail-fast disabled it
returns Err carrying the original error, and with fail-fast enabled it
sets the sticky corruption mark and terminates the process with a
diagnostic carrying the offending error (which names the key). -/
theorem corruption_policy_dual_posture (w : World) (e : RError) :
    (handle_check_key_in_region_error w e).1.criticalErrors = w.criticalErrors + 1 ∧
    (w.panicWhenUnexpectedKeyOrData = false →
      handle_check_key_in_region_error w e =
        ({ w with criticalErrors := w.criticalErrors + 1 }, ROutcome.err e)) ∧
    (w.panicWhenUnexpectedKeyOrData = true →
      handle_check_key_in_region_error w e =
        ({ w with criticalErrors := w.criticalErrors + 1, panicMark := true },
          ROutcome.panicked e)) := by
  unfold handle_check_key_in_region_error
  refine ⟨?_, fun h => ?_, fun h => ?_⟩
  · by_cases h : w.panicWhenUnexpectedKeyOrData = true <;> simp [h]
  · simp [h]
  · simp [h]

/-- Witness for C8 at a concrete world with fail-fast enabled. -/
theorem corruption_policy_dual_posture_witness :
    (handle_check_key_in_region_error w1 (RError.keyNotInRegion [9] region0)).1.criticalErrors =
        w1.criticalErrors + 1 ∧
      handle_check_key_in_region_error w1 (RError.keyNotInRegion [9] region0) =
        ({ w1 with criticalErrors := w1.criticalErrors + 1, panicMark := true },
          ROutcome.panicked (RError.keyNotInRegion [9] region0)) :=
  ⟨(corruption_policy_dual_posture w1 (RError.keyNotInRegion [9] region0)).1,
   (corruption_policy_dual_posture w1 (RError.keyNotInRegion [9] region0)).2.2 rfl⟩

/-- C4 (confirmed): bound intersection — the effective bounds fixed at
iterator construction are the user bounds clipped against the shard's
encoded boundary (`max` with the encoded start, `min` with the encoded
end, missing or empty user bounds falling back to the shard boundary), and
the iterator ranges exactly over `[`clipped lower`, `clipped upper`)`. -/
theorem bound_intersection (snap : SyncSnapshot) (r : Region) (opt : IterOption) :
    (set_upper_bound (set_lower_bound opt r) r).lower_bound =
        some (clipLower opt.lower_bound r) ∧
    (set_upper_bound (set_lower_bound opt r) r).upper_bound =
        some (clipUpper opt.upper_bound r) ∧
    (RegionIterator.new snap r opt).entries =
      snap.defaultCf.filter (fun kv =>
        keyLe (clipLower opt.lower_bound r) kv.1 && keyLt kv.1 (clipUpper opt.upper_bound r)) := by
  refine ⟨?_, ?_, ?_⟩
  · rw [set_bounds_spec]
  · rw [set_bounds_spec]
  · show (SyncSnapshot.db_iterator snap (set_upper_bound (set_lower_bound opt r) r)) = _
    rw [set_bounds_spec]
    unfold SyncSnapshot.db_iterator boundCheck
    rfl

/-- C10 (confirmed): the captured shard descriptor is immutable — the
accessors return the construction-time boundaries, cloning shares the same
descriptor and engine snapshot, and every iterator handed out shares that
descriptor; none of these operations changes the snapshot. -/
theorem region_descriptor_immutable (snap : SyncSnapshot) (r : Region) (opt : IterOption)
    (s : RegionSnapshot) (hs : s = RegionSnapshot.from_snapshot snap r) :
    RegionSnapshot.get_start_key s = r.start_key ∧
    RegionSnapshot.get_end_key s = r.end_key ∧
    RegionSnapshot.get_region s = r ∧
    RegionSnapshot.clone s = s ∧
    (RegionSnapshot.clone s).get_region = r ∧
    (RegionSnapshot.iter s opt).region = r ∧
    ∀ cf it, RegionSnapshot.iter_cf s cf opt = ROutcome.ok it → it.region = r := by
  subst hs
  refine ⟨rfl, rfl, rfl, rfl, rfl, rfl, fun cf it hit => ?_⟩
  exact (builtFrom_spec (Or.inr ⟨cf, opt, hit⟩)).1

/-- Witness for C10 at the concrete snapshot `s0`. -/
theorem region_descriptor_immutable_witness :
    RegionSnapshot.get_start_key s0 = region0.start_key ∧
    RegionSnapshot.get_end_key s0 = region0.end_key ∧
    RegionSnapshot.get_region s0 = region0 ∧
    RegionSnapshot.clone s0 = s0 ∧
    (RegionSnapshot.clone s0).get_region = region0 ∧
    (RegionSnapshot.iter s0 IterOption.default).region = region0 ∧
    ∀ cf it, RegionSnapshot.iter_cf s0 cf IterOption.default = ROutcome.ok it →
      it.region = region0 :=
  region_descriptor_immutable snap0 region0 IterOption.default s0 rfl

/-- C3 (amended): a point lookup (`get_value` / `get_value_cf`) at a key
outside `[start_key, end_key)` returns `Err(KeyNotInRegion)` directly via
the `?` operator — it does NOT delegate to the corruption policy: the
critical-error counter is not incremented and the process is never
aborted, whatever the fail-fast flag says.  (Only seek-target validation
routes through `handle_check_key_in_region_error`.) -/
theorem point_get_out_of_range_no_policy (w : World) (s : RegionSnapshot) (key : Key)
    (cf : String) (h : keyInRegion key s.region = false) :
    RegionSnapshot.get_value w s key = (w, ROutcome.err (RError.keyNotInRegion key s.region)) ∧
    RegionSnapshot.get_value_cf w s cf key =
      (w, ROutcome.err (RError.keyNotInRegion key s.region)) := by
  unfold RegionSnapshot.get_value RegionSnapshot.get_value_cf check_key_in_region
  rw [h]
  exact ⟨rfl, rfl⟩

/-- Witness for amended C3 at the concrete out-of-range key `[9]` with
fail-fast enabled. -/
theorem point_get_out_of_range_no_policy_witness :
    keyInRegion [9] s0.region = false ∧
    RegionSnapshot.get_value w1 s0 [9] =
        (w1, ROutcome.err (RError.keyNotInRegion [9] s0.region)) ∧
    RegionSnapshot.get_value_cf w1 s0 "lock" [9] =
        (w1, ROutcome.err (RError.keyNotInRegion [9] s0.region)) :=
  ⟨by decide, point_get_out_of_range_no_policy w1 s0 [9] "lock" (by decide)⟩

/-- C3 counterexample: with fail-fast enabled and the counter at zero, the
point lookup at the out-of-range key `[9]` returns the error with the
world unchanged — the counter stays 0, no mark is set and the process is
not aborted, refuting "every such call increments the critical-error
counter and then either returns Err or sets the mark and aborts". -/
theorem point_get_policy_counterexample :
    w1.panicWhenUnexpectedKeyOrData = true ∧ w1.criticalErrors = 0 ∧
    RegionSnapshot.get_value w1 s0 [9] =
      (w1, ROutcome.err (RError.keyNotInRegion [9] region0)) ∧
    (RegionSnapshot.get_value w1 s0 [9]).1.criticalErrors = 0 ∧
    (RegionSnapshot.get_value w1 s0 [9]).1.panicMark = false := by
  decide

/-- C5 (confirmed): point lookup contract — in range, `get_value` returns
`Ok(Some v)` when the engine snapshot holds `v` at the physical encoding
of the key and `Ok(None)` when it holds nothing; out of range (stated, as
the claim does, for non-fail-fast mode) it returns `Err(KeyNotInRegion)`. -/
theorem point_lookup_contract (w : World) (snap : SyncSnapshot) (r : Region) (k : Key)
    (s : RegionSnapshot) (hs : s = RegionSnapshot.from_snapshot snap r) :
    (keyInRegion k r = true → ∀ v, snap.get_value (data_key k) = some v →
      RegionSnapshot.get_value w s k = (w, ROutcome.ok (some v))) ∧
    (keyInRegion k r = true → snap.get_value (data_key k) = none →
      RegionSnapshot.get_value w s k = (w, ROutcome.ok none)) ∧
    (keyInRegion k r = false → w.panicWhenUnexpectedKeyOrData = false →
      RegionSnapshot.get_value w s k = (w, ROutcome.err (RError.keyNotInRegion k r))) := by
  subst hs
  unfold RegionSnapshot.get_value check_key_in_region
  refine ⟨fun h v hv => ?_, fun h hv => ?_, fun h _ => ?_⟩
  · rw [show (RegionSnapshot.from_snapshot snap r).region = r from rfl, h]
    show (w, ROutcome.ok (snap.get_value (data_key k))) = _
    rw [hv]
  · rw [show (RegionSnapshot.from_snapshot snap r).region = r from rfl, h]
    show (w, ROutcome.ok (snap.get_value (data_key k))) = _
    rw [hv]
  · rw [show (RegionSnapshot.from_snapshot snap r).region = r from rfl, h]
    rfl

/-- Witness for C5: a present in-range key, an absent in-range key and an
out-of-range key on the concrete snapshot. -/
theorem point_lookup_contract_witness :
    keyInRegion [3] region0 = true ∧
    RegionSnapshot.get_value w0 s0 [3] = (w0, ROutcome.ok (some [13])) ∧
    RegionSnapshot.get_value w0 s0 [4] = (w0, ROutcome.ok none) ∧
    RegionSnapshot.get_value w0 s0 [9] =
      (w0, ROutcome.err (RError.keyNotInRegion [9] region0)) :=
  ⟨by decide,
   (point_lookup_contract w0 snap0 region0 [3] s0 rfl).1 (by decide) [13] (by decide),
   (point_lookup_contract w0 snap0 region0 [4] s0 rfl).2.1 (by decide) (by decide),
   (point_lookup_contract w0 snap0 region0 [9] s0 rfl).2.2 (by decide) rfl⟩

/-- C6 (code bug, evaluated at the failing input): requesting an iterator
for a column family absent from the engine does not surface a recoverable
`ColumnFamilyNotFound` error — the `.unwrap()` inside
`RegionIterator::new_cf` aborts the process, so `iter_cf` never returns
the error to the caller.  With an existing column family the construction
succeeds. -/
theorem iter_cf_missing_cf_aborts :
    RegionSnapshot.iter_cf s0 "missing" IterOption.default =
      ROutcome.panicked (RError.columnFamilyNotFound "missing") ∧
    (∀ it, RegionSnapshot.iter_cf s0 "missing" IterOption.default ≠ ROutcome.ok it) ∧
    (∀ e, RegionSnapshot.iter_cf s0 "missing" IterOption.default ≠ ROutcome.err e) ∧
    (∃ it, RegionSnapshot.iter_cf s0 "lock" IterOption.default = ROutcome.ok it) := by
  have h : RegionSnapshot.iter_cf s0 "missing" IterOption.default =
      ROutcome.panicked (RError.columnFamilyNotFound "missing") := by decide
  refine ⟨h, fun it hit => ?_, fun e he => ?_, ?_⟩
  · rw [h] at hit
    exact absurd hit (by simp)
  · rw [h] at he
    exact absurd he (by simp)
  · exact ⟨{ entries := [([122, 4], [14])], pos := none, region := region0 }, by decide⟩

/-- C1 (confirmed): range containment — for every region `[s, e)` (empty
`e` unbounded) and every iterator handed out by a `RegionSnapshot` over
it, after every sequence of cursor operations (`seek`, `seek_for_prev`,
`seek_to_first`, `seek_to_last`, `next`, `prev`), the logical key at any
position the iterator reaches satisfies `s ≤ k` and `k < e` when `e` is
non-empty.  Scans visit only such positions, since `scan` drives exactly
this iterator by `seek` and `next`. -/
theorem range_containment (snap : SyncSnapshot) (r : Region) (s : RegionSnapshot)
    (hs : s = RegionSnapshot.from_snapshot snap r)
    (it0 it : RegionIterator) (h0 : BuiltFrom s it0) (hr : IterReaches it0 it)
    (k : Key) (hk : RegionIterator.key it = some k) :
    keyLe r.start_key k = true ∧ (r.end_key ≠ [] → keyLt k r.end_key = true) := by
  subst hs
  obtain ⟨hent, -⟩ := iterReaches_frame hr
  obtain ⟨-, hin⟩ := builtFrom_spec h0
  unfold RegionIterator.key at hk
  cases hp : it.pos with
  | none =>
    rw [hp] at hk
    exact absurd hk (by simp)
  | some i =>
    rw [hp] at hk
    rcases Option.map_eq_some'.mp hk with ⟨kv, hget, hkv⟩
    have hmem : kv ∈ it.entries := List.get?_mem hget
    rw [hent] at hmem
    obtain ⟨hlo, hhi⟩ := hin kv hmem
    have hres := strip_range hlo hhi
    rw [hkv] at hres
    exact hres

/-- Witness for C1: on the concrete snapshot, seeking to the first entry
positions the iterator at logical key `[3]`, which lies in `[[2], [7])`. -/
theorem range_containment_witness :
    RegionIterator.key (RegionIterator.seek_to_first (RegionSnapshot.iter s0 IterOption.default)).1 =
        some [3] ∧
      (keyLe region0.start_key [3] = true ∧
        (region0.end_key ≠ [] → keyLt [3] region0.end_key = true)) :=
  ⟨by decide,
   range_containment snap0 region0 s0 rfl (RegionSnapshot.iter s0 IterOption.default)
     (RegionIterator.seek_to_first (RegionSnapshot.iter s0 IterOption.default)).1
     (Or.inl ⟨IterOption.default, rfl⟩)
     (Relation.ReflTransGen.single (IterStep.stf (RegionSnapshot.iter s0 IterOption.default)))
     [3] (by decide)⟩

/-- C2 (amended): `should_seekable` validates BOTH `seek` and
`seek_for_prev` targets against `[start_key, end_key]` with an INCLUSIVE
upper bound, so `seek(end_key)` is accepted, not rejected: it passes
validation (leaving the world untouched) and returns `Ok(false)`, because
the iterator's clipped bounds exclude every physical key at or above the
encoded end; `seek_for_prev(end_key)` is likewise accepted. -/
theorem seek_end_key_accepted (snap : SyncSnapshot) (r : Region) (s : RegionSnapshot)
    (hs : s = RegionSnapshot.from_snapshot snap r) (it0 : RegionIterator)
    (h0 : BuiltFrom s it0) (w : World)
    (hne : r.end_key ≠ []) (hse : keyLe r.start_key r.end_key = true) :
    RegionIterator.seek w it0 r.end_key = (w, { it0 with pos := none }, ROutcome.ok false) ∧
    (∃ it1 b, RegionIterator.seek_for_prev w it0 r.end_key = (w, it1, ROutcome.ok b)) := by
  subst hs
  have hreg : it0.region = r := (builtFrom_spec h0).1
  have hincl : keyInRegionIncl r.end_key r = true := by
    unfold keyInRegionIncl
    rw [hse, keyLe_refl]
    simp
  have hss : RegionIterator.should_seekable w it0 r.end_key = (w, ROutcome.ok ()) := by
    unfold RegionIterator.should_seekable check_key_in_region_inclusive
    rw [hreg, hincl]
    rfl
  have henc : enc_end_key r = data_key r.end_key := by
    unfold enc_end_key
    cases hcase : r.end_key with
    | nil => exact absurd hcase hne
    | cons a l => rfl
  have hnone : findFirstGe it0.entries (data_key r.end_key) = none := by
    apply findFirstGe_eq_none
    intro kv hkv
    have hhi : keyLt kv.1 (enc_end_key r) = true := ((builtFrom_spec h0).2 kv hkv).2
    rw [henc] at hhi
    simp only [keyLe, hhi, Bool.not_true]
  constructor
  · unfold RegionIterator.seek
    rw [hss, hnone]
  · unfold RegionIterator.seek_for_prev
    rw [hss]
    cases hfl : findLastLe it0.entries (data_key r.end_key) with
    | none => exact ⟨{ it0 with pos := none }, false, rfl⟩
    | some i => exact ⟨{ it0 with pos := some i }, true, rfl⟩

/-- Witness for amended C2: seeking the end key `[7]` on the concrete
snapshot is accepted and returns `Ok(false)`; `seek_for_prev([7])`
succeeds as well. -/
theorem seek_end_key_accepted_witness :
    region0.end_key ≠ [] ∧
    RegionIterator.seek w0 (RegionSnapshot.iter s0 IterOption.default) region0.end_key =
      (w0, { RegionSnapshot.iter s0 IterOption.default with pos := none }, ROutcome.ok false) ∧
    (∃ it1 b, RegionIterator.seek_for_prev w0 (RegionSnapshot.iter s0 IterOption.default)
        region0.end_key = (w0, it1, ROutcome.ok b)) :=
  ⟨by decide,
   (seek_end_key_accepted snap0 region0 s0 rfl (RegionSnapshot.iter s0 IterOption.default)
      (Or.inl ⟨IterOption.default, rfl⟩) w0 (by decide) (by decide)).1,
   (seek_end_key_accepted snap0 region0 s0 rfl (RegionSnapshot.iter s0 IterOption.default)
      (Or.inl ⟨IterOption.default, rfl⟩) w0 (by decide) (by decide)).2⟩

/-- C2 counterexample: on region `[[2], [7])`, `seek([7])` — the exclusive
end boundary — is NOT rejected with a `KeyNotInRegion` error: it returns
`Ok(false)` with the world untouched (no counter increment), refuting
"seek(e) is rejected with a KeyNotInRegion error". -/
theorem seek_end_key_counterexample :
    RegionIterator.seek w0 (RegionSnapshot.iter s0 IterOption.default) [7] =
      (w0, { RegionSnapshot.iter s0 IterOption.default with pos := none },
        ROutcome.ok false) := by
  decide

/-- C7 (confirmed): scan loop semantics — `scan` builds an iterator
bounded by `[startKey, endKey)`, positions it at `startKey` and then runs
the visitor loop over the entries from that position (`scanFrom`, the
embedding of the `while it_valid` loop); the loop returns `Ok(())` when
the entries are exhausted with the visitor always answering "continue",
returns `Ok(())` as soon as the visitor answers "stop", and when the
visitor reports an error it returns that error immediately, never
touching the entries that follow. -/
theorem scan_semantics (w : World) (s : RegionSnapshot) (start_key end_key : Key)
    (fill_cache : Bool) (f : Key → Value → Except RError Bool)
    (hstart : keyInRegionIncl start_key s.region = true) :
    RegionSnapshot.scan w s start_key end_key fill_cache f =
      (w, liftExcept (scanFrom f (scanEntries s start_key end_key fill_cache))) ∧
    (∀ l, (∀ kv ∈ l, f (origin_key kv.1) kv.2 = Except.ok true) →
      scanFrom f l = Except.ok ()) ∧
    (∀ kv l, f (origin_key kv.1) kv.2 = Except.ok false →
      scanFrom f (kv :: l) = Except.ok ()) ∧
    (∀ l1 kv l2 e, (∀ x ∈ l1, f (origin_key x.1) x.2 = Except.ok true) →
      f (origin_key kv.1) kv.2 = Except.error e →
      scanFrom f (l1 ++ kv :: l2) = Except.error e) := by
  refine ⟨?_, ?_, ?_, ?_⟩
  · have hss : RegionIterator.should_seekable w
        (RegionSnapshot.iter s (IterOption.new (some start_key) (some end_key) fill_cache))
        start_key = (w, ROutcome.ok ()) := by
      unfold RegionIterator.should_seekable check_key_in_region_inclusive
      rw [show (RegionSnapshot.iter s (IterOption.new (some start_key) (some end_key)
          fill_cache)).region = s.region from rfl, hstart]
      rfl
    show RegionSnapshot.scan_impl w
        (RegionSnapshot.iter s (IterOption.new (some start_key) (some end_key) fill_cache))
        start_key f = _
    unfold RegionSnapshot.scan_impl RegionIterator.seek
    rw [hss]
    unfold scanEntries
    cases hf : findFirstGe (RegionSnapshot.iter s (IterOption.new (some start_key)
        (some end_key) fill_cache)).entries (data_key start_key) with
    | some i => rfl
    | none => rfl
  · intro l hl
    induction l with
    | nil => rfl
    | cons kv rest ih =>
      unfold scanFrom
      rw [hl kv (List.mem_cons_self kv rest)]
      exact ih (fun x hx => hl x (List.mem_cons_of_mem kv hx))
  · intro kv l hf
    unfold scanFrom
    rw [hf]
  · intro l1 kv l2 e h1 hkv
    induction l1 with
    | nil =>
      simp only [List.nil_append]
      unfold scanFrom
      rw [hkv]
    | cons x rest ih =>
      simp only [List.cons_append]
      unfold scanFrom
      rw [h1 x (List.mem_cons_self x rest)]
      exact ih (fun y hy => h1 y (List.mem_cons_of_mem x hy))

/-- Witness for C7: a concrete scan over `[[2], [255, 255])` on the
concrete snapshot with an always-continue visitor. -/
theorem scan_semantics_witness :
    keyInRegionIncl [2] s0.region = true ∧
    RegionSnapshot.scan w0 s0 [2] [255, 255] false (fun _ _ => Except.ok true) =
      (w0, liftExcept (scanFrom (fun _ _ => Except.ok true) (scanEntries s0 [2] [255, 255]
        false))) ∧
    RegionSnapshot.scan w0 s0 [2] [255, 255] false (fun _ _ => Except.ok true) =
      (w0, ROutcome.ok ()) :=
  ⟨by decide,
   (scan_semantics w0 s0 [2] [255, 255] false (fun _ _ => Except.ok true) (by decide)).1,
   by decide⟩

/-- C9 (confirmed): a scan whose start key lies outside the region's
seekable range `[start_key, end_key]` fails the seek validation before the
visitor is ever consulted: the critical-error counter is incremented and
the scan returns the `KeyNotInRegion` error (fail-fast disabled) or sets
the mark and aborts (fail-fast enabled); the result does not depend on
the visitor at all — it never completes as an empty scan. -/
theorem scan_out_of_range_start (w : World) (s : RegionSnapshot) (start_key end_key : Key)
    (fill_cache : Bool) (f : Key → Value → Except RError Bool)
    (h : keyInRegionIncl start_key s.region = false) :
    (w.panicWhenUnexpectedKeyOrData = false →
      RegionSnapshot.scan w s start_key end_key fill_cache f =
        ({ w with criticalErrors := w.criticalErrors + 1 },
          ROutcome.err (RError.keyNotInRegion start_key s.region))) ∧
    (w.panicWhenUnexpectedKeyOrData = true →
      RegionSnapshot.scan w s start_key end_key fill_cache f =
        ({ w with criticalErrors := w.criticalErrors + 1, panicMark := true },
          ROutcome.panicked (RError.keyNotInRegion start_key s.region))) ∧
    (∀ g, RegionSnapshot.scan w s start_key end_key fill_cache f =
      RegionSnapshot.scan w s start_key end_key fill_cache g) := by
  rcases (Bool.eq_false_or_eq_true w.panicWhenUnexpectedKeyOrData).symm with hflag | hflag
  · have hval : ∀ (g : Key → Value → Except RError Bool),
        RegionSnapshot.scan w s start_key end_key fill_cache g =
          ({ w with criticalErrors := w.criticalErrors + 1 },
            ROutcome.err (RError.keyNotInRegion start_key s.region)) := by
      intro g
      have hss : RegionIterator.should_seekable w
          (RegionSnapshot.iter s (IterOption.new (some start_key) (some end_key) fill_cache))
          start_key =
          ({ w with criticalErrors := w.criticalErrors + 1 },
            ROutcome.err (RError.keyNotInRegion start_key s.region)) := by
        unfold RegionIterator.should_seekable check_key_in_region_inclusive
        rw [show (RegionSnapshot.iter s (IterOption.new (some start_key) (some end_key)
            fill_cache)).region = s.region from rfl, h]
        show handle_check_key_in_region_error w
            (RError.keyNotInRegion start_key s.region) = _
        unfold handle_check_key_in_region_error
        simp [hflag]
      show RegionSnapshot.scan_impl w
          (RegionSnapshot.iter s (IterOption.new (some start_key) (some end_key) fill_cache))
          start_key g = _
      unfold RegionSnapshot.scan_impl RegionIterator.seek
      rw [hss]
    exact ⟨fun _ => hval f, fun hcontra => absurd (hflag.symm.trans hcontra) (by simp),
      fun g => (hval f).trans (hval g).symm⟩
  · have hval : ∀ (g : Key → Value → Except RError Bool),
        RegionSnapshot.scan w s start_key end_key fill_cache g =
          ({ w with criticalErrors := w.criticalErrors + 1, panicMark := true },
            ROutcome.panicked (RError.keyNotInRegion start_key s.region)) := by
      intro g
      have hss : RegionIterator.should_seekable w
          (RegionSnapshot.iter s (IterOption.new (some start_key) (some end_key) fill_cache))
          start_key =
          ({ w with criticalErrors := w.criticalErrors + 1, panicMark := true },
            ROutcome.panicked (RError.keyNotInRegion start_key s.region)) := by
        unfold RegionIterator.should_seekable check_key_in_region_inclusive
        rw [show (RegionSnapshot.iter s (IterOption.new (some start_key) (some end_key)
            fill_cache)).region = s.region from rfl, h]
        show handle_check_key_in_region_error w
            (RError.keyNotInRegion start_key s.region) = _
        unfold handle_check_key_in_region_error
        simp [hflag]
      show RegionSnapshot.scan_impl w
          (RegionSnapshot.iter s (IterOption.new (some start_key) (some end_key) fill_cache))
          start_key g = _
      unfold RegionSnapshot.scan_impl RegionIterator.seek
      rw [hss]
    exact ⟨fun hcontra => absurd (hflag.symm.trans hcontra) (by simp),
      fun _ => hval f, fun g => (hval f).trans (hval g).symm⟩

/-- Witness for C9: scanning from the out-of-range start key `[9]` on the
concrete snapshot with fail-fast disabled returns the `KeyNotInRegion`
error and bumps the counter. -/
theorem scan_out_of_range_start_witness :
    keyInRegionIncl [9] s0.region = false ∧
    RegionSnapshot.scan w0 s0 [9] [255, 255] true (fun _ _ => Except.ok true) =
      ({ w0 with criticalErrors := w0.criticalErrors + 1 },
        ROutcome.err (RError.keyNotInRegion [9] s0.region)) :=
  ⟨by decide,
   (scan_out_of_range_start w0 s0 [9] [255, 255] true (fun _ _ => Except.ok true)
     (by decide)).1 rfl⟩

end RegionSnap
